import Mathlib

/-!
Verification of the smart-pantry expiry-risk and recipe-matching engine.

The definitions below are a shallow embedding of the TypeScript source:
  - backend/src/routes/inventory.ts   (stats bucketing, bulk import, item update)
  - backend/src/services/gemini.ts    (recipe scoring, both versions)
  - backend/src/services/notifications.ts (expiry notification trigger)
  - src/SmartPantry.tsx               (frontend classifier, offline fallback matcher)

JavaScript instants (Date.getTime values) are modelled as integers (milliseconds),
date-only strings as the instant of their UTC midnight, numeric computations as
exact rationals.  A JavaScript number that can be NaN is modelled as Option:
none stands for NaN.
-/

namespace SmartPantry

/-! ### JavaScript numeric helpers

Math.round rounds half toward positive infinity (ECMAScript 21.3.2.28), so for
an exact fraction num/den with positive den, Math.round(num/den) is the floor of
num/den + 1/2 = (2 num + den) / (2 den).  Integer division on ℤ is euclidean,
which for a positive divisor is exactly floor division, so the definitions
below compute with integers; the bridge lemmas restate them as rational floors
and ceilings. -/

/-- Math.round(num / den) for a positive denominator. -/
def jsRoundDiv (num den : ℤ) : ℤ := (2 * num + den) / (2 * den)

/-- Math.round((u / t) * 100) for natural counts, as the recipe scorers compute
    it.  When t = 0 the JavaScript code divides 0 by 0, giving NaN, and
    Math.round(NaN) is NaN: modelled as none. -/
def jsPercent (u t : ℕ) : Option ℤ :=
  if t = 0 then none else some (jsRoundDiv (100 * u) t)

theorem jsRoundDiv_eq_floor (num den : ℤ) (h : 0 < den) :
    jsRoundDiv num den = ⌊(num : ℚ) / (den : ℚ) + 1/2⌋ := by
  have htn : (((2 * den).toNat : ℤ)) = 2 * den := Int.toNat_of_nonneg (by omega)
  have hden : ((den : ℚ)) ≠ 0 := by
    exact_mod_cast ne_of_gt h
  have hq : (num : ℚ) / (den : ℚ) + 1/2
      = ((2 * num + den : ℤ) : ℚ) / (((2 * den).toNat : ℕ) : ℚ) := by
    have : (((2 * den).toNat : ℕ) : ℚ) = ((2 * den : ℤ) : ℚ) := by
      exact_mod_cast congrArg (fun z : ℤ => (z : ℚ)) htn
    rw [this]
    push_cast
    field_simp
    ring
  rw [hq, Rat.floor_intCast_div_natCast, jsRoundDiv, htn]

theorem jsPercent_eq_floor (u t : ℕ) (h : t ≠ 0) :
    jsPercent u t = some ⌊(u : ℚ) / (t : ℚ) * 100 + 1/2⌋ := by
  have ht : (0 : ℤ) < (t : ℤ) := by exact_mod_cast Nat.pos_of_ne_zero h
  rw [jsPercent, if_neg h, jsRoundDiv_eq_floor _ _ ht]
  congr 2
  push_cast
  ring

/-! ### Freshness buckets

Backend bucketing, GET /api/inventory/stats (routes/inventory.ts lines 86-109):
the stored expiry date parses to its UTC-midnight instant and is compared, as an
instant, against the current instant and against the instant three days later. -/

/-- Milliseconds per day (1000 * 3600 * 24). -/
def dayMs : ℤ := 86400000

inductive Bucket
  | expired
  | expiring
  | fresh
deriving DecidableEq, Repr

/-- The if/else chain of the stats route: expiryDate < today, then
    expiryDate <= threeDaysFromNow, else fresh.  today and expiry are instants. -/
def statsBucket (today expiry : ℤ) : Bucket :=
  if expiry < today then .expired
  else if expiry ≤ today + 3 * dayMs then .expiring
  else .fresh

structure StatsCounts where
  expired : ℕ
  expiring : ℕ
  fresh : ℕ
deriving DecidableEq, Repr

/-- One step of the forEach counting loop. -/
def bumpCount (c : StatsCounts) : Bucket → StatsCounts
  | .expired => { c with expired := c.expired + 1 }
  | .expiring => { c with expiring := c.expiring + 1 }
  | .fresh => { c with fresh := c.fresh + 1 }

/-- The counting loop of GET /api/inventory/stats over the expiry instants of all
    items of one user. -/
def tally (today : ℤ) (expiries : List ℤ) : StatsCounts :=
  expiries.foldl (fun c e => bumpCount c (statsBucket today e)) ⟨0, 0, 0⟩

/-! Frontend classifier, SmartPantry.tsx getExpiryStatus (lines 815-820 and 966-971):
days = Math.ceil((expiry - now) / dayMs), then the three-way bucket rule with
threshold 3. -/

/-- daysUntilExpiry as the frontend computes it from two instants:
    Math.ceil((expiry - now) / dayMs).  The ceiling of a fraction with positive
    denominator is the negated floor of the negated fraction, hence the integer
    form; jsDays_eq_ceil restates it as the rational ceiling. -/
def jsDays (now expiry : ℤ) : ℤ := -((now - expiry) / dayMs)

theorem jsDays_eq_ceil (now expiry : ℤ) :
    jsDays now expiry = ⌈((expiry - now : ℤ) : ℚ) / (dayMs : ℚ)⌉ := by
  have htn : (((dayMs).toNat : ℤ)) = dayMs := by decide
  have hq : -(((expiry - now : ℤ) : ℚ) / (dayMs : ℚ))
      = ((now - expiry : ℤ) : ℚ) / (((dayMs).toNat : ℕ) : ℚ) := by
    have h1 : (((dayMs).toNat : ℕ) : ℚ) = ((dayMs : ℤ) : ℚ) := by
      exact_mod_cast congrArg (fun z : ℤ => (z : ℚ)) htn
    rw [h1]
    push_cast
    ring
  have hc : ⌈((expiry - now : ℤ) : ℚ) / (dayMs : ℚ)⌉
      = -⌊-(((expiry - now : ℤ) : ℚ) / (dayMs : ℚ))⌋ := by
    rw [Int.floor_neg, neg_neg]
  rw [hc, hq, Rat.floor_intCast_div_natCast, jsDays, htn]

/-- getExpiryStatus bucket rule: days < 0 expired, days <= 3 expiring, else fresh. -/
def getExpiryStatus (now expiry : ℤ) : Bucket :=
  if jsDays now expiry < 0 then .expired
  else if jsDays now expiry ≤ 3 then .expiring
  else .fresh

/-! ### Helper lemmas for the tally -/

theorem tally_go_sum (today : ℤ) (es : List ℤ) (c : StatsCounts) :
    (es.foldl (fun c e => bumpCount c (statsBucket today e)) c).expired
      + (es.foldl (fun c e => bumpCount c (statsBucket today e)) c).expiring
      + (es.foldl (fun c e => bumpCount c (statsBucket today e)) c).fresh
      = c.expired + c.expiring + c.fresh + es.length := by
  induction es generalizing c with
  | nil => simp
  | cons e es ih =>
    simp only [List.foldl_cons, List.length_cons]
    rw [ih]
    cases h : statsBucket today e <;> simp [bumpCount, h] <;> omega

theorem tally_go_expired (today : ℤ) (es : List ℤ) (c : StatsCounts) :
    (es.foldl (fun c e => bumpCount c (statsBucket today e)) c).expired
      = c.expired + es.countP (fun e => statsBucket today e == .expired) := by
  induction es generalizing c with
  | nil => simp
  | cons e es ih =>
    simp only [List.foldl_cons, List.countP_cons]
    rw [ih]
    cases h : statsBucket today e <;> simp [bumpCount, h] <;> omega

theorem tally_go_expiring (today : ℤ) (es : List ℤ) (c : StatsCounts) :
    (es.foldl (fun c e => bumpCount c (statsBucket today e)) c).expiring
      = c.expiring + es.countP (fun e => statsBucket today e == .expiring) := by
  induction es generalizing c with
  | nil => simp
  | cons e es ih =>
    simp only [List.foldl_cons, List.countP_cons]
    rw [ih]
    cases h : statsBucket today e <;> simp [bumpCount, h] <;> omega

theorem tally_go_fresh (today : ℤ) (es : List ℤ) (c : StatsCounts) :
    (es.foldl (fun c e => bumpCount c (statsBucket today e)) c).fresh
      = c.fresh + es.countP (fun e => statsBucket today e == .fresh) := by
  induction es generalizing c with
  | nil => simp
  | cons e es ih =>
    simp only [List.foldl_cons, List.countP_cons]
    rw [ih]
    cases h : statsBucket today e <;> simp [bumpCount, h] <;> omega

/-- C1: for every list of items (including the empty list) the stats counts
    satisfy expired + expiring + fresh = total where total is the number of
    items; each of the three counters counts exactly the items of its bucket,
    so every item lands in exactly one bucket; the empty list gives all
    three counters zero. -/
theorem stats_counts_partition (today : ℤ) (es : List ℤ) :
    (tally today es).expired + (tally today es).expiring + (tally today es).fresh
        = es.length
    ∧ (tally today es).expired = es.countP (fun e => statsBucket today e == .expired)
    ∧ (tally today es).expiring = es.countP (fun e => statsBucket today e == .expiring)
    ∧ (tally today es).fresh = es.countP (fun e => statsBucket today e == .fresh)
    ∧ tally today ([] : List ℤ) = ⟨0, 0, 0⟩ := by
  refine ⟨?_, ?_, ?_, ?_, rfl⟩
  · simpa using tally_go_sum today es ⟨0, 0, 0⟩
  · simpa using tally_go_expired today es ⟨0, 0, 0⟩
  · simpa using tally_go_expiring today es ⟨0, 0, 0⟩
  · simpa using tally_go_fresh today es ⟨0, 0, 0⟩

/-- C2 (divergence shown at a concrete input): with the reference instant at noon
    of the day the item expires (expiry parsed to the UTC midnight instant 0,
    reference instant 12h later), the frontend classifier computes
    ceil(-0.5) = 0 days and classifies ExpiringSoon, while the stats endpoint
    compares raw instants (midnight < noon) and counts the item as Expired.
    The claim that both sides classify the item ExpiringSoon regardless of the
    time-of-day of the reference instant is therefore false on the backend. -/
theorem stats_bucket_today_divergence :
    getExpiryStatus 43200000 0 = .expiring
    ∧ statsBucket 43200000 0 = .expired := by
  decide

/-! ### Recipe matcher

Ingredient and recipe records as the scorers see them.  A recipe candidate
arrives from the generator with title, usedIngredients and missingIngredients;
the scorer fills matchPercentage.  matchPercentage is Option: none stands for
the NaN that JavaScript produces on 0/0. -/

structure Ingredient where
  name : String
  expiryDate : ℤ
deriving DecidableEq, Repr

structure Recipe where
  title : String
  usedIngredients : List String
  missingIngredients : List String
  matchPercentage : Option ℤ
deriving DecidableEq, Repr

/-- The numeric value the comparator (a, b) => b.matchPercentage - a.matchPercentage
    subtracts.  For a defined score this is the score itself; the theorems about
    ranking only apply it to defined scores (the behaviour of the JavaScript sort
    on NaN comparator results is implementation defined and out of scope). -/
def matchKey (r : Recipe) : ℤ := r.matchPercentage.getD 0

/-- The descending order the comparator induces: a may come before b. -/
def matchGe (a b : Recipe) : Prop := matchKey b ≤ matchKey a

instance : DecidableRel matchGe := fun a b =>
  inferInstanceAs (Decidable (matchKey b ≤ matchKey a))

instance : IsTotal Recipe matchGe :=
  ⟨fun a b => le_total (matchKey b) (matchKey a)⟩

instance : IsTrans Recipe matchGe :=
  ⟨fun _ _ _ h1 h2 => le_trans h2 h1⟩

/-- .sort((a, b) => b.matchPercentage - a.matchPercentage): a stable sort by
    descending matchPercentage.  All stable sorts by one total preorder agree,
    so the embedding uses insertion sort. -/
def rankByMatchDesc (l : List Recipe) : List Recipe := l.insertionSort matchGe

/-- The scoring body of generateRecipeSuggestions: in inventory mode
    Math.round((used.length / (used.length + missing.length)) * 100), in
    cookbook mode the constant 0. -/
def scoreCandidate (hasIngredients : Bool) (r : Recipe) : Recipe :=
  { r with
    matchPercentage :=
      if hasIngredients then
        jsPercent r.usedIngredients.length
          (r.usedIngredients.length + r.missingIngredients.length)
      else some 0 }

/-- generateRecipeSuggestions, cookbook-aware version (src/unnamed/part_002):
    hasIngredients is true exactly when the ingredient list is non-empty; every
    parsed candidate is scored, then the list is sorted by descending match. -/
def generateRecipeSuggestions (ingredients : List Ingredient)
    (candidates : List Recipe) : List Recipe :=
  rankByMatchDesc (candidates.map (scoreCandidate (!ingredients.isEmpty)))

/-- generateRecipeSuggestions, backend/src/services/gemini.ts version: no
    cookbook branch, the division always runs. -/
def generateRecipeSuggestionsV1 (candidates : List Recipe) : List Recipe :=
  rankByMatchDesc (candidates.map (scoreCandidate true))

/-! Stability of the ranking: filtering the sorted list down to any one score
gives the same sequence as filtering the input, so candidates of equal score
keep their original relative order. -/

theorem filter_orderedInsert_key (v : ℤ) (r : Recipe) (l : List Recipe) :
    (l.orderedInsert matchGe r).filter (fun x => matchKey x == v)
      = if matchKey r == v
          then r :: l.filter (fun x => matchKey x == v)
          else l.filter (fun x => matchKey x == v) := by
  induction l with
  | nil => simp [List.orderedInsert, List.filter_cons]
  | cons b l ih =>
    by_cases hb : matchGe r b
    · rw [List.orderedInsert_of_le _ _ hb]
      simp only [List.filter_cons]
    · have hb2 : ¬ matchKey b ≤ matchKey r := hb
      simp only [List.orderedInsert, if_neg hb, List.filter_cons, ih]
      by_cases hrv : matchKey r = v
      · have hbv : matchKey b ≠ v := fun hc => hb2 (le_of_eq (hc.trans hrv.symm))
        simp [hrv, hbv]
      · simp [hrv]

theorem filter_rankByMatchDesc (v : ℤ) (l : List Recipe) :
    (rankByMatchDesc l).filter (fun x => matchKey x == v)
      = l.filter (fun x => matchKey x == v) := by
  unfold rankByMatchDesc
  induction l with
  | nil => rfl
  | cons b l ih =>
    show ((l.insertionSort matchGe).orderedInsert matchGe b).filter _ = _
    rw [filter_orderedInsert_key]
    by_cases hbv : matchKey b = v
    · simp [hbv, List.filter_cons, ih]
    · simp [hbv, List.filter_cons, ih]

/-- C5: the returned recipe list is a permutation of the scored candidates; it is
    sorted by descending matchPercentage; every returned recipe carries a defined
    score equal to its sort key; and for every score value the returned recipes
    of that score appear in exactly the order the generator produced them
    (stability).  The hypothesis restricts to candidates whose scores are
    defined, as the claim presupposes integer match percentages. -/
theorem ranking_sorted_stable (ingredients : List Ingredient)
    (candidates : List Recipe)
    (h : ∀ r ∈ candidates.map (scoreCandidate (!ingredients.isEmpty)),
        (r.matchPercentage).isSome) :
    List.Perm (generateRecipeSuggestions ingredients candidates)
        (candidates.map (scoreCandidate (!ingredients.isEmpty)))
    ∧ List.Sorted matchGe (generateRecipeSuggestions ingredients candidates)
    ∧ (∀ r ∈ generateRecipeSuggestions ingredients candidates,
        r.matchPercentage = some (matchKey r))
    ∧ ∀ v : ℤ,
        (generateRecipeSuggestions ingredients candidates).filter
            (fun x => matchKey x == v)
          = (candidates.map (scoreCandidate (!ingredients.isEmpty))).filter
              (fun x => matchKey x == v) := by
  refine ⟨List.perm_insertionSort _ _, List.sorted_insertionSort _ _, ?_, ?_⟩
  · intro r hr
    have hmem : r ∈ candidates.map (scoreCandidate (!ingredients.isEmpty)) :=
      (List.perm_insertionSort _ _).subset hr
    have := h r hmem
    cases hm : r.matchPercentage with
    | none => rw [hm] at this; simp at this
    | some z => simp [matchKey, hm]
  · intro v
    exact filter_rankByMatchDesc v _

/-- C5 witness: two candidates scoring 40 and 80, given in that order, come back
    as a permutation of the scored pair with the 80-percent recipe first. -/
theorem ranking_sorted_stable_witness :
    List.Perm
        (generateRecipeSuggestions [⟨"Milk", 0⟩]
          [⟨"Forty", ["a", "b"], ["c", "d", "e"], none⟩,
           ⟨"Eighty", ["a", "b", "c", "d"], ["e"], none⟩])
        ([⟨"Forty", ["a", "b"], ["c", "d", "e"], none⟩,
          ⟨"Eighty", ["a", "b", "c", "d"], ["e"], none⟩].map
          (scoreCandidate (!([⟨"Milk", 0⟩] : List Ingredient).isEmpty)))
    ∧ (generateRecipeSuggestions [⟨"Milk", 0⟩]
          [⟨"Forty", ["a", "b"], ["c", "d", "e"], none⟩,
           ⟨"Eighty", ["a", "b", "c", "d"], ["e"], none⟩]).map matchKey = [80, 40] :=
  ⟨(ranking_sorted_stable [⟨"Milk", 0⟩]
      [⟨"Forty", ["a", "b"], ["c", "d", "e"], none⟩,
       ⟨"Eighty", ["a", "b", "c", "d"], ["e"], none⟩] (by decide)).1,
   by decide⟩

/-- C7: in cookbook mode (empty or absent ingredient list) every returned
    candidate has matchPercentage 0, whatever its ingredient lists. -/
theorem cookbook_mode_match_zero (candidates : List Recipe) (r : Recipe)
    (hr : r ∈ generateRecipeSuggestions [] candidates) :
    r.matchPercentage = some 0 := by
  have hmem : r ∈ candidates.map (scoreCandidate (!([] : List Ingredient).isEmpty)) :=
    (List.perm_insertionSort _ _).subset hr
  obtain ⟨c, _, hc⟩ := List.mem_map.mp hmem
  rw [← hc]
  rfl

/-- C7 witness: a concrete cookbook-mode call returns its candidate with score 0. -/
theorem cookbook_mode_match_zero_witness :
    (Recipe.mk "Toast" ["Bread"] ["Butter"] (some 0)).matchPercentage = some 0 :=
  cookbook_mode_match_zero [⟨"Toast", ["Bread"], ["Butter"], none⟩]
    ⟨"Toast", ["Bread"], ["Butter"], some 0⟩ (by decide)

/-- C3 (divergence shown at a concrete input): a candidate whose usedIngredients
    and missingIngredients are both empty makes the inventory-grounded scorer
    compute Math.round((0 / 0) * 100) = NaN (modelled none) in both generator
    versions; the spec requires this undefined input to be guarded to 0, and no
    guard exists in the code. -/
theorem match_divide_by_zero_unguarded :
    (generateRecipeSuggestions [⟨"Milk", 0⟩] [⟨"Mystery", [], [], none⟩]).map
        (fun r => r.matchPercentage) = [none]
    ∧ (generateRecipeSuggestionsV1 [⟨"Mystery", [], [], none⟩]).map
        (fun r => r.matchPercentage) = [none] := by
  decide

/-! ### Offline fallback matcher (SmartPantry.tsx getFallbackRecipes)

Strings are handled character by character: lowerStr is toLowerCase (the names
involved are ASCII, where JavaScript and Char.toLower agree), beginsWith and
containsSub implement String.prototype.includes, and firstWordLower is
req.toLowerCase().split(" ")[0]. -/

/-- Is the first list a prefix of the second? -/
def beginsWith : List Char → List Char → Bool
  | [], _ => true
  | _ :: _, [] => false
  | c :: cs, d :: ds => c == d && beginsWith cs ds

/-- String.prototype.includes needle-in-hay, on character lists. -/
def containsSub : List Char → List Char → Bool
  | [], needle => beginsWith needle []
  | c :: t, needle => beginsWith needle (c :: t) || containsSub t needle

/-- toLowerCase as a character list. -/
def lowerStr (s : String) : List Char := s.data.map Char.toLower

/-- req.toLowerCase().split(" ")[0]: the part before the first space. -/
def firstWordLower (req : String) : List Char :=
  (lowerStr req).takeWhile (fun c => !(c == ' '))

/-- The available subset of a required-ingredient list:
    usedIngredients.filter(req => inv.some(item =>
      item.name.toLowerCase().includes(req.toLowerCase().split(" ")[0]))). -/
def availableOf (inv : List Ingredient) (used : List String) : List String :=
  used.filter (fun req =>
    inv.any (fun item => containsSub (lowerStr item.name) (firstWordLower req)))

/-- The per-recipe body of getFallbackRecipes: compute the available subset and
    matchPercentage = Math.round((available.length /
    (available.length + missingIngredients.length)) * 100). -/
def scoreFallback (inv : List Ingredient) (r : Recipe) : Recipe :=
  { r with
    matchPercentage :=
      jsPercent (availableOf inv r.usedIngredients).length
        ((availableOf inv r.usedIngredients).length + r.missingIngredients.length) }

/-- The static catalog of getFallbackRecipes (titles and ingredient lists as in
    the source; images omitted). -/
def allRecipes : List Recipe :=
  [⟨"Creamy Chicken Spinach Pasta", ["Chicken Breast", "Spinach", "Parmesan"],
      ["Pasta", "Heavy Cream"], some 0⟩,
   ⟨"Classic Eggs Benedict", ["Eggs"], ["English Muffin", "Ham"], some 0⟩,
   ⟨"Greek Yogurt Parfait", ["Greek Yogurt"], ["Granola", "Berries"], some 0⟩,
   ⟨"Tomato Basil Soup", ["Tomato Sauce"], ["Basil", "Cream"], some 0⟩]

/-- getFallbackRecipes: score every catalog recipe against the inventory, then
    sort by descending matchPercentage. -/
def getFallbackRecipes (inv : List Ingredient) : List Recipe :=
  rankByMatchDesc (allRecipes.map (scoreFallback inv))

/-- C6: the fallback matcher on inventory Milk, Eggs and a recipe using Milk and
    Cheese with Cheese missing finds available = just Milk and scores
    round(100 * 1 / 2) = 50; in general a required ingredient is available
    exactly when its lowercased first word occurs as a substring of some
    lowercased inventory item name. -/
theorem fallback_matcher_scenario :
    availableOf [⟨"Milk", 0⟩, ⟨"Eggs", 0⟩] ["Milk", "Cheese"] = ["Milk"]
    ∧ (scoreFallback [⟨"Milk", 0⟩, ⟨"Eggs", 0⟩]
        ⟨"Scenario", ["Milk", "Cheese"], ["Cheese"], none⟩).matchPercentage = some 50
    ∧ ∀ (inv : List Ingredient) (used : List String) (req : String),
        req ∈ availableOf inv used
          ↔ req ∈ used ∧ ∃ item ∈ inv,
              containsSub (lowerStr item.name) (firstWordLower req) = true := by
  refine ⟨by decide, by decide, ?_⟩
  intro inv used req
  simp [availableOf, List.mem_filter, List.any_eq_true]

/-! ### Inventory stats with the usage-stats override (GET /api/inventory/stats)

wasteSaved is the integer printed inside the dollar string, co2Reduced the
number printed before "kg".  The heuristics Math.round((total - expired) * 3.5)
and Math.round((total - expired) * 0.8) appear as jsRoundDiv (7 * n) 2 and
jsRoundDiv (4 * n) 5 (exact fractions; the binary-float error of 0.8 is far too
small to cross a rounding boundary at these magnitudes).  The optional chain
usageStats?.estimated_savings ? A : B takes A exactly when the row exists and
holds a truthy, that is nonzero, value. -/

structure UsageRow where
  estimated_savings : ℚ
  co2_saved : ℚ
deriving DecidableEq, Repr

structure InvStats where
  total : ℕ
  expired : ℕ
  expiring : ℕ
  fresh : ℕ
  wasteSaved : ℤ
  co2Reduced : ℚ
deriving DecidableEq, Repr

/-- Number.prototype.toFixed(0): nearest integer, ties to the larger value
    (ECMAScript 21.1.3.3), like Math.round on exact rationals. -/
def jsToFixed0 (q : ℚ) : ℤ := jsRoundDiv q.num (q.den : ℤ)

/-- toFixed(1) as the number it prints, in tenths: round(10 q). -/
def jsToFixed1 (q : ℚ) : ℤ := jsRoundDiv (10 * q.num) (q.den : ℤ)

/-- The stats payload of GET /api/inventory/stats: live bucket counts from the
    expiry instants, and the two estimate fields with their truthiness-guarded
    override from the usage_stats row of the current month. -/
def inventoryStats (today : ℤ) (expiries : List ℤ) (usageStats : Option UsageRow) :
    InvStats :=
  let c := tally today expiries
  let total := expiries.length
  let heurWaste : ℤ := jsRoundDiv (7 * ((total : ℤ) - (c.expired : ℤ))) 2
  let heurCo2 : ℚ := ((jsRoundDiv (4 * ((total : ℤ) - (c.expired : ℤ))) 5 : ℤ) : ℚ)
  { total := total
    expired := c.expired
    expiring := c.expiring
    fresh := c.fresh
    wasteSaved :=
      match usageStats with
      | some row =>
          if row.estimated_savings ≠ 0 then jsToFixed0 row.estimated_savings
          else heurWaste
      | none => heurWaste
    co2Reduced :=
      match usageStats with
      | some row =>
          if row.co2_saved ≠ 0 then ((jsToFixed1 row.co2_saved : ℤ) : ℚ) / 10
          else heurCo2
      | none => heurCo2 }

theorem heuristic_waste_eq (total expired : ℕ) :
    jsRoundDiv (7 * ((total : ℤ) - (expired : ℤ))) 2
      = ⌊((total : ℚ) - (expired : ℚ)) * (7/2) + 1/2⌋ := by
  rw [jsRoundDiv_eq_floor _ _ (by norm_num)]
  push_cast
  ring_nf

theorem heuristic_co2_eq (total expired : ℕ) :
    jsRoundDiv (4 * ((total : ℤ) - (expired : ℤ))) 5
      = ⌊((total : ℚ) - (expired : ℚ)) * (4/5) + 1/2⌋ := by
  rw [jsRoundDiv_eq_floor _ _ (by norm_num)]
  push_cast
  ring_nf

/-- C4 counterexample: a usage_stats row for the current month exists but holds
    the value 0 (also the column default); the route then falls back to the
    heuristic and reports 7 dollars for two fresh items, not the 0 the persisted
    row dictates under the claim. -/
theorem stats_override_zero_counterexample :
    (UsageRow.mk 0 0).estimated_savings = 0
    ∧ (inventoryStats 0 [864000000, 864000000] (some ⟨0, 0⟩)).wasteSaved = 7
    ∧ jsToFixed0 (0 : ℚ) = 0
    ∧ (7 : ℤ) ≠ 0 := by
  decide

/-- C4 as amended: the bucket counts and the total are always computed live from
    the item set, for every override row or none; the persisted
    estimated_savings and co2_saved take precedence only when nonzero (JavaScript
    truthiness), and a zero or absent value falls back to the heuristics
    round((total - expired) * 3.5) dollars and round((total - expired) * 0.8) kg. -/
theorem stats_override_semantics (today : ℤ) (es : List ℤ) (row : UsageRow)
    (r? : Option UsageRow) :
    ((inventoryStats today es r?).expired = (tally today es).expired
      ∧ (inventoryStats today es r?).expiring = (tally today es).expiring
      ∧ (inventoryStats today es r?).fresh = (tally today es).fresh
      ∧ (inventoryStats today es r?).total = es.length)
    ∧ (row.estimated_savings ≠ 0 →
        (inventoryStats today es (some row)).wasteSaved
          = jsToFixed0 row.estimated_savings)
    ∧ (row.estimated_savings = 0 →
        (inventoryStats today es (some row)).wasteSaved
          = ⌊((es.length : ℚ) - ((tally today es).expired : ℚ)) * (7/2) + 1/2⌋)
    ∧ ((inventoryStats today es none).wasteSaved
        = ⌊((es.length : ℚ) - ((tally today es).expired : ℚ)) * (7/2) + 1/2⌋)
    ∧ (row.co2_saved ≠ 0 →
        (inventoryStats today es (some row)).co2Reduced
          = ((jsToFixed1 row.co2_saved : ℤ) : ℚ) / 10)
    ∧ (row.co2_saved = 0 →
        (inventoryStats today es (some row)).co2Reduced
          = (⌊((es.length : ℚ) - ((tally today es).expired : ℚ)) * (4/5) + 1/2⌋ : ℤ))
    ∧ ((inventoryStats today es none).co2Reduced
        = (⌊((es.length : ℚ) - ((tally today es).expired : ℚ)) * (4/5) + 1/2⌋ : ℤ)) := by
  refine ⟨⟨rfl, rfl, rfl, rfl⟩, ?_, ?_, ?_, ?_, ?_, ?_⟩
  · intro h
    simp [inventoryStats, h]
  · intro h
    simp [inventoryStats, h, heuristic_waste_eq]
  · simp [inventoryStats, heuristic_waste_eq]
  · intro h
    simp [inventoryStats, h]
  · intro h
    simp [inventoryStats, h, heuristic_co2_eq]
  · simp [inventoryStats, heuristic_co2_eq]

/-! ### Expiry notification trigger (services/notifications.ts
sendExpiryNotifications)

Dates are calendar-day numbers: the stored date strings are ISO dates, whose
lexicographic comparison in SQL agrees with chronological order, and
date("now") and the computed future date are days.  The SQL row set
WHERE np.enabled = 1 OR np.enabled IS NULL is the filter by notifEligible;
user.expiry_days_before || 3 is effectiveDaysBefore, where both a missing row
(NULL) and a stored 0 are falsy and give 3. -/

structure NotifPrefs where
  enabled : Bool
  expiryDaysBefore : ℤ
deriving DecidableEq, Repr

structure NUser where
  id : String
  name : String
  prefs : Option NotifPrefs
deriving DecidableEq, Repr

structure PantryItem where
  userId : String
  name : String
  expiryDate : ℤ
deriving DecidableEq, Repr

/-- WHERE np.enabled = 1 OR np.enabled IS NULL. -/
def notifEligible (u : NUser) : Bool :=
  match u.prefs with
  | none => true
  | some p => p.enabled

/-- user.expiry_days_before || 3: NULL (no row) and 0 are both falsy. -/
def effectiveDaysBefore (p : Option NotifPrefs) : ℤ :=
  match p with
  | none => 3
  | some pr => if pr.expiryDaysBefore = 0 then 3 else pr.expiryDaysBefore

instance : DecidableRel (fun a b : PantryItem => a.expiryDate ≤ b.expiryDate) :=
  fun a b => Int.decLe a.expiryDate b.expiryDate

/-- SELECT ... WHERE user_id = ? AND expiry_date <= today + daysBefore AND
    expiry_date >= date("now") ORDER BY expiry_date ASC. -/
def expiringItemsFor (items : List PantryItem) (uid : String)
    (today daysBefore : ℤ) : List PantryItem :=
  (items.filter (fun it =>
      it.userId == uid && today ≤ it.expiryDate
        && it.expiryDate ≤ today + daysBefore)).insertionSort
    (fun a b => a.expiryDate ≤ b.expiryDate)

/-- sendExpiryNotifications: for every eligible user compute the expiring items
    with that user's effective window, and notify exactly the users whose list
    is non-empty.  The result pairs each notified user id with its items. -/
def sendExpiryNotifications (users : List NUser) (items : List PantryItem)
    (today : ℤ) : List (String × List PantryItem) :=
  ((users.filter notifEligible).map
      (fun u => (u.id, expiringItemsFor items u.id today
        (effectiveDaysBefore u.prefs)))).filter
    (fun p => !p.2.isEmpty)

/-- C8 counterexample: a user whose stored expiryDaysBefore is 0 (reachable
    through PUT /api/notifications/preferences) gets, per the claim, a window of
    0 days, which excludes an item expiring in 2 days and hence any
    notification; the code turns the falsy 0 into 3 and notifies. -/
theorem notify_zero_pref_counterexample :
    sendExpiryNotifications [⟨"u1", "Ana", some ⟨true, 0⟩⟩]
        [⟨"u1", "Milk", 2⟩] 0
      = [("u1", [⟨"u1", "Milk", 2⟩])]
    ∧ ¬((0 : ℤ) ≤ 2 ∧ (2 : ℤ) ≤ 0 + 0) := by
  decide

/-- C8 as amended: the trigger considers exactly the users whose preference
    enabled is true or who have no preference row; each output entry belongs
    to such a user and lists only that user's items with
    0 <= daysUntilExpiry <= w, where the window w is expiryDaysBefore when
    nonzero and 3 when the preference is missing or stores 0; no entry is
    empty, and every considered user owning a qualifying item is notified. -/
theorem notify_trigger_semantics (users : List NUser) (items : List PantryItem)
    (today : ℤ) :
    (∀ p ∈ sendExpiryNotifications users items today, p.2 ≠ [])
    ∧ (∀ p ∈ sendExpiryNotifications users items today,
        ∃ u ∈ users, u.id = p.1
          ∧ (u.prefs = none ∨ ∃ pr, u.prefs = some pr ∧ pr.enabled = true)
          ∧ ∀ it ∈ p.2, it.userId = u.id ∧ today ≤ it.expiryDate
              ∧ it.expiryDate ≤ today + effectiveDaysBefore u.prefs)
    ∧ ∀ u ∈ users,
        (u.prefs = none ∨ ∃ pr, u.prefs = some pr ∧ pr.enabled = true) →
        (∃ it ∈ items, it.userId = u.id ∧ today ≤ it.expiryDate
            ∧ it.expiryDate ≤ today + effectiveDaysBefore u.prefs) →
        ∃ p ∈ sendExpiryNotifications users items today, p.1 = u.id := by
  have heligible : ∀ u : NUser, notifEligible u = true
      ↔ (u.prefs = none ∨ ∃ pr, u.prefs = some pr ∧ pr.enabled = true) := by
    intro u
    cases hp : u.prefs with
    | none => simp [notifEligible, hp]
    | some pr => simp [notifEligible, hp]
  have hmemsort : ∀ (l : List PantryItem) (it : PantryItem),
      it ∈ l.insertionSort (fun a b => a.expiryDate ≤ b.expiryDate) ↔ it ∈ l :=
    fun l it => (List.perm_insertionSort _ l).mem_iff
  refine ⟨?_, ?_, ?_⟩
  · intro p hp
    have := (List.mem_filter.mp hp).2
    intro hnil
    rw [hnil] at this
    simp at this
  · intro p hp
    obtain ⟨hmap, _⟩ := List.mem_filter.mp hp
    obtain ⟨u, hu, hpu⟩ := List.mem_map.mp hmap
    obtain ⟨huu, helig⟩ := List.mem_filter.mp hu
    refine ⟨u, huu, ?_, (heligible u).mp helig, ?_⟩
    · rw [← hpu]
    · intro it hit
      rw [← hpu] at hit
      have hmemf := (hmemsort _ it).mp hit
      obtain ⟨_, hcond⟩ := List.mem_filter.mp hmemf
      simp only [Bool.and_eq_true, beq_iff_eq, decide_eq_true_eq] at hcond
      exact ⟨hcond.1.1, hcond.1.2, hcond.2⟩
  · intro u hu helig ⟨it, hit, hitu, hd0, hdw⟩
    have hufil : u ∈ users.filter notifEligible :=
      List.mem_filter.mpr ⟨hu, (heligible u).mpr helig⟩
    have hitem : it ∈ expiringItemsFor items u.id today (effectiveDaysBefore u.prefs) := by
      apply (hmemsort _ it).mpr
      refine List.mem_filter.mpr ⟨hit, ?_⟩
      simp only [Bool.and_eq_true, beq_iff_eq, decide_eq_true_eq]
      exact ⟨⟨hitu, hd0⟩, hdw⟩
    refine ⟨(u.id, expiringItemsFor items u.id today (effectiveDaysBefore u.prefs)),
      List.mem_filter.mpr ⟨List.mem_map.mpr ⟨u, hufil, rfl⟩, ?_⟩, rfl⟩
    cases hl : expiringItemsFor items u.id today (effectiveDaysBefore u.prefs) with
    | nil => rw [hl] at hitem; simp at hitem
    | cons a as => simp

/-! ### Bulk import (POST /api/inventory/bulk)

The route prepares one INSERT and runs every record inside a single
db.transaction.  The ingredients table carries
CHECK(category IN ("Produce", "Dairy", "Pantry", "Meat", "Other")), so an
invalid category makes the INSERT throw, better-sqlite3 rolls the whole
transaction back, and the route answers 500: either all records enter the
store or none does. -/

def validCategory (c : String) : Bool :=
  c == "Produce" || c == "Dairy" || c == "Pantry" || c == "Meat" || c == "Other"

structure BulkItem where
  name : String
  category : String
  quantity : String
  expiryDate : String
  confidence : ℚ
deriving DecidableEq, Repr

deriving instance DecidableEq for Except

/-- POST /api/inventory/bulk as a function from the current store (the
    requesting user's rows plus everyone else's) to the store after the
    request: all-valid batches are appended and acknowledged with the count,
    any invalid record rolls the transaction back leaving the store unchanged
    and the route answering with the error envelope. -/
def bulkInsert (store : List (String × BulkItem)) (uid : String)
    (items : List BulkItem) : List (String × BulkItem) × Except String ℕ :=
  if items.all (fun it => validCategory it.category) then
    (store ++ items.map (fun it => (uid, it)), Except.ok items.length)
  else
    (store, Except.error "Failed to add items")

/-- C9 counterexample: a batch of one valid record (Milk, Dairy) and one record
    with the invalid category Snacks leaves the store empty and reports an
    error: the valid record is not inserted, so the batch was aborted rather
    than the single offending record rejected. -/
theorem bulk_abort_counterexample :
    bulkInsert [] "u1"
        [⟨"Milk", "Dairy", "1", "2024-06-12", 1⟩,
         ⟨"Chips", "Snacks", "1", "2024-06-12", 1⟩]
      = ([], Except.error "Failed to add items")
    ∧ validCategory "Dairy" = true
    ∧ validCategory "Snacks" = false := by
  decide

/-- C9 as amended: bulk import is atomic over the whole batch: when any record
    fails category validation the store is unchanged and an error is returned,
    and only when every record is valid are all records inserted. -/
theorem bulk_import_atomic (store : List (String × BulkItem)) (uid : String)
    (items : List BulkItem) :
    ((∃ it ∈ items, validCategory it.category = false) →
        bulkInsert store uid items = (store, Except.error "Failed to add items"))
    ∧ ((∀ it ∈ items, validCategory it.category = true) →
        bulkInsert store uid items
          = (store ++ items.map (fun it => (uid, it)), Except.ok items.length)) := by
  constructor
  · intro ⟨it, hit, hbad⟩
    have : ¬ items.all (fun it => validCategory it.category) = true := by
      intro hall
      have := List.all_eq_true.mp hall it hit
      rw [hbad] at this
      exact Bool.false_ne_true this
    simp [bulkInsert, this]
  · intro hgood
    have : items.all (fun it => validCategory it.category) = true :=
      List.all_eq_true.mpr fun it hit => hgood it hit
    simp [bulkInsert, this]

/-! ### Item update (PUT /api/inventory/:id)

The route first SELECTs the row with the given id owned by the requester and
answers 404 when none exists; otherwise it UPDATEs that row, each field through
COALESCE(?, field) so that a null (omitted) request field keeps the stored
value, and re-SELECTs the row by id (the primary key) for the response. -/

end SmartPantry
